/-
Verification of the risk-scoring core of the defi-risk-agent repository.

The definitions below are a shallow embedding of the Python source:
  * `src/tools/risk_metrics.py`  (RiskCalculator)
  * `src/tools/rekt_scraper.py`  (RektScraper: name normalizer and incident correlator)
  * `src/tools/defillama.py`     (DefiLlamaClient: TTL cache, incident guard)
  * `src/models/schemas.py`      (data model)

Modelling conventions:
  * Python floats are modelled as `ℚ` (the code performs only field
    arithmetic and comparisons on the values the claims are about).
  * `datetime` values are modelled as integer timestamps; a duration of
    "30 days" becomes the integer 30 on that time axis, and the cache's
    second-granularity clock is modelled as `ℚ` seconds.
  * Python `None` becomes `Option.none`; `dict.get(k, d)` becomes
    `Option.getD`.
  * Fallible code (an uncaught exception) is modelled with `Except`.
  * Strings are processed on `List Char`; all inputs of interest are ASCII,
    on which Lean's `Char.toLower` agrees with Python's `str.lower`.
-/
import Mathlib

namespace DefiRisk

/-! ## Data model (src/models/schemas.py) -/

/-- `RiskLevel` enum from schemas.py. -/
inductive RiskLevel where
  | low
  | medium
  | high
  | critical
deriving DecidableEq, Repr

/-- `RiskFactor` model from schemas.py.  The pydantic schema constrains
`score ∈ [0,10]` and `weight ∈ [0,1]`; in the embedding those constraints
appear as hypotheses where a claim needs them. -/
structure RiskFactor where
  name : String
  score : ℚ
  weight : ℚ
  description : String
  details : Option String
deriving DecidableEq, Repr

/-- `RiskScore` model from schemas.py. -/
structure RiskScore where
  overall : ℚ
  level : RiskLevel
  factors : List RiskFactor
deriving DecidableEq, Repr

/-- `RiskScore.from_score` classmethod from schemas.py: derives the
discrete level from the numeric score (≤3 low, ≤5 medium, ≤7 high,
else critical). -/
def RiskScore.from_score (score : ℚ) (factors : List RiskFactor) : RiskScore :=
  { overall := score
    level :=
      if score ≤ 3 then RiskLevel.low
      else if score ≤ 5 then RiskLevel.medium
      else if score ≤ 7 then RiskLevel.high
      else RiskLevel.critical
    factors := factors }

/-! ## Aggregator (risk_metrics.py, RiskCalculator.calculate_overall_risk) -/

/-- Total weight of a factor list: `sum(f.weight for f in factors)`. -/
def totalWeight (factors : List RiskFactor) : ℚ :=
  (factors.map RiskFactor.weight).sum

/-- Weighted sum of a factor list: `sum(f.score * f.weight for f in factors)`. -/
def weightedSum (factors : List RiskFactor) : ℚ :=
  (factors.map (fun f => f.score * f.weight)).sum

/-- `RiskCalculator.calculate_overall_risk` from risk_metrics.py:
empty list → neutral 5.0/medium; zero total weight → neutral 5.0/medium
keeping the factors; otherwise the weighted mean, renormalized by the total
weight, classified via `RiskScore.from_score`. -/
def calculate_overall_risk (factors : List RiskFactor) : RiskScore :=
  match factors with
  | [] => { overall := 5, level := RiskLevel.medium, factors := [] }
  | _ :: _ =>
    if totalWeight factors = 0 then
      { overall := 5, level := RiskLevel.medium, factors := factors }
    else
      RiskScore.from_score (weightedSum factors / totalWeight factors) factors

/-! ## String machinery for the normalizer / correlator (rekt_scraper.py)

Boolean re-implementations of the Python string primitives the scraper
uses, defined on `List Char`. -/

/-- Python `\s` on ASCII: space, tab, newline, carriage return, vertical
tab, form feed. -/
def isPySpace (c : Char) : Bool :=
  c == ' ' || c == '\t' || c == '\n' || c == '\r' || c == '\x0b' || c == '\x0c'

/-- Python `\w` on ASCII: letters, digits, underscore. -/
def isWordChar (c : Char) : Bool :=
  c.isAlphanum || c == '_'

/-- `startsWithL pre s` : Python `s.startswith(pre)` on char lists. -/
def startsWithL : List Char → List Char → Bool
  | [], _ => true
  | _ :: _, [] => false
  | a :: as, b :: bs => a == b && startsWithL as bs

/-- `containsL needle hay` : Python `needle in hay` (substring test). -/
def containsL (needle : List Char) : List Char → Bool
  | [] => startsWithL needle []
  | c :: cs => startsWithL needle (c :: cs) || containsL needle cs

/-- `pyStartsWith s pre` : Python `s.startswith(pre)` on strings. -/
def pyStartsWith (s pre : String) : Bool :=
  startsWithL pre.toList s.toList

/-- `pyContains hay needle` : Python `needle in hay` on strings. -/
def pyContains (hay needle : String) : Bool :=
  containsL needle.toList hay.toList

/-- Python `s.split('-')[0]`: the characters before the first hyphen. -/
def pySplitHead (s : String) : String :=
  String.mk (s.toList.takeWhile (fun c => c ≠ '-'))

/-! ## Identity normalizer (rekt_scraper.py, RektScraper._normalize_protocol_name) -/

/-- The generic trailing qualifier words stripped by the normalizer's
regex `\s+(finance|protocol|defi|network|v\d+)$`. -/
def qualifierWords : List (List Char) :=
  ["finance".toList, "protocol".toList, "defi".toList, "network".toList]

/-- On the reversed character list: if the head of `rest` is whitespace,
drop the whole whitespace run (the regex's greedy `\s+`), else fail.
Used after a qualifier word has been matched at the end of the string. -/
def stripAfterWs (rest : List Char) : Option (List Char) :=
  match rest with
  | c :: _ => if isPySpace c then some (rest.dropWhile isPySpace) else none
  | [] => none

/-- On the reversed character list: strip the qualifier word `w` plus the
whitespace run before it, if the string ends with whitespace followed by
`w`. -/
def tryWordSuffix (rcs : List Char) (w : List Char) : Option (List Char) :=
  if startsWithL w.reverse rcs then stripAfterWs (rcs.drop w.length) else none

/-- On the reversed character list: strip a trailing version marker
`v<digits>` plus the whitespace run before it (the `v\d+` alternative). -/
def tryVSuffix (rcs : List Char) : Option (List Char) :=
  let digs := rcs.takeWhile Char.isDigit
  if digs.isEmpty then none
  else
    match rcs.drop digs.length with
    | 'v' :: rest => stripAfterWs rest
    | _ => none

/-- The regex `re.sub(r'\s+(finance|protocol|defi|network|v\d+)$', '', s)`:
at most one trailing qualifier, preceded by at least one whitespace
character, is removed together with that whitespace run. -/
def stripQualifier (cs : List Char) : List Char :=
  let rcs := cs.reverse
  match (qualifierWords.firstM (tryWordSuffix rcs)).orElse (fun _ => tryVSuffix rcs) with
  | some r => r.reverse
  | none => cs

/-- Collapse runs of hyphens to a single hyphen:
`re.sub(r'-+', '-', s)`. -/
def collapseHyphens : List Char → List Char
  | [] => []
  | [c] => [c]
  | c :: d :: cs =>
    if c == '-' && d == '-' then collapseHyphens (d :: cs)
    else c :: collapseHyphens (d :: cs)

/-- Python `s.strip('-')`. -/
def stripHyphens (cs : List Char) : List Char :=
  ((cs.dropWhile (fun c => c == '-')).reverse.dropWhile (fun c => c == '-')).reverse

/-- `RektScraper._normalize_protocol_name` from rekt_scraper.py, on char
lists: lowercase; strip one whitespace-preceded trailing qualifier; drop
characters other than word chars, whitespace and hyphens; turn whitespace
into hyphens (each run collapsing to one); collapse hyphen runs; trim edge
hyphens.  Replacing each whitespace character by a hyphen and then
collapsing hyphen runs is equivalent to the code's
`re.sub(r'\s+', '-', s)` followed by `re.sub(r'-+', '-', s)`. -/
def normalizeChars (cs : List Char) : List Char :=
  let lowered := cs.map Char.toLower
  let stripped := stripQualifier lowered
  let filtered := stripped.filter (fun c => isWordChar c || isPySpace c || c == '-')
  let hyphened := filtered.map (fun c => if isPySpace c then '-' else c)
  stripHyphens (collapseHyphens hyphened)

/-- `RektScraper._normalize_protocol_name`: the Python parameter is
`str | None`; `None` and the empty string both yield `""` via the
`if not name` guard. -/
def pyNormalize (name : Option String) : String :=
  match name with
  | none => ""
  | some s => if s = "" then "" else String.mk (normalizeChars s.toList)

/-! ## Incident correlator (rekt_scraper.py, RektScraper.fetch_protocol_incidents) -/

/-- A raw leaderboard record as consumed by `fetch_protocol_incidents`.
In Python this is an untyped dict read with `item.get(...)`; `Option`
models an absent (or `None`) key.  The `date` field is the one whose
parsing can fail: `none` is an absent/null date, `some none` is a date
string present but rejected by `datetime.fromisoformat` (which raises),
and `some (some t)` is a date string parsing to timestamp `t`. -/
structure RawRecord where
  protocol : Option String
  slug : Option String
  tags : List String
  amount : ℚ
  date : Option (Option Int)
  title : Option String
  description : Option String
  audit_status : Option String
  fixed : Bool
  url : Option String
deriving DecidableEq, Repr

/-- `item_protocol = self._normalize_protocol_name(item.get("protocol", ""))`. -/
def itemProtocolNorm (r : RawRecord) : String :=
  pyNormalize (some (r.protocol.getD ""))

/-- `item_slug = self._normalize_protocol_name(item.get("slug", ""))`. -/
def itemSlugNorm (r : RawRecord) : String :=
  pyNormalize (some (r.slug.getD ""))

/-- `normalized_name = self._normalize_protocol_name(protocol_name) if
protocol_name else None`: a `None` or empty display name yields `None`. -/
def normalizedNameOpt (protocol_name : Option String) : Option String :=
  match protocol_name with
  | some s => if s = "" then none else some (pyNormalize (some s))
  | none => none

/-- The correlator's exact-match tier (rekt_scraper.py lines 281-285):
`item_slug == normalized_slug or item_protocol == normalized_slug or
(normalized_name and item_protocol == normalized_name)`.  A present but
empty `normalized_name` is falsy in Python, hence the emptiness guard. -/
def exactMatchB (nslug : String) (nname : Option String) (r : RawRecord) : Bool :=
  itemSlugNorm r == nslug || itemProtocolNorm r == nslug ||
    (match nname with
     | some n => (n != "") && (itemProtocolNorm r == n)
     | none => false)

/-- The correlator's partial-match condition (rekt_scraper.py lines
290-299): base tokens before the first hyphen must be nonempty, and the
query base must occur in — or be a prefix of — the record's slug or
protocol field. -/
def partialMatchB (nslug : String) (r : RawRecord) : Bool :=
  let baseSlug := pySplitHead nslug
  let islug := itemSlugNorm r
  let baseItemSlug := if islug != "" then pySplitHead islug else ""
  (baseSlug != "") && (baseItemSlug != "") &&
    (pyContains islug baseSlug || pyStartsWith islug baseSlug ||
     pyContains (itemProtocolNorm r) baseSlug || pyStartsWith (itemProtocolNorm r) baseSlug)

/-- The correlator's tag tier (rekt_scraper.py lines 303-306):
`normalized_slug in item_tags or (normalized_name and normalized_name in
item_tags)`. -/
def tagMatchB (nslug : String) (nname : Option String) (r : RawRecord) : Bool :=
  let itags := r.tags.map (fun t => pyNormalize (some t))
  itags.contains nslug ||
    (match nname with
     | some n => (n != "") && itags.contains n
     | none => false)

/-- Whether `fetch_protocol_incidents` selects a raw record for the query
`(slug, protocol_name)`: exact tier, else (for a nonempty normalized
slug) partial tier, else tag tier. -/
def matchedB (slug : String) (protocol_name : Option String) (r : RawRecord) : Bool :=
  let nslug := pyNormalize (some slug)
  let nname := normalizedNameOpt protocol_name
  let ex := exactMatchB nslug nname r
  let pm := if !ex && nslug != "" then partialMatchB nslug r else false
  ex || pm || tagMatchB nslug nname r

/-- Modelled from the spec: `IncidentSeverity` is imported from the
schemas module by the scraper but is absent from the provided
`schemas.py`; values per spec §3. -/
inductive IncidentSeverity where
  | low
  | medium
  | high
  | critical
deriving DecidableEq, Repr

/-- `RektScraper._classify_severity`: bracket boundaries exclusive on
`> threshold`. -/
def classify_severity (amount_usd : ℚ) : IncidentSeverity :=
  if 50000000 < amount_usd then IncidentSeverity.critical
  else if 10000000 < amount_usd then IncidentSeverity.high
  else if 1000000 < amount_usd then IncidentSeverity.medium
  else IncidentSeverity.low

/-- Modelled from the spec: `ExploitIncident` is imported from the schemas
module by the scraper but is absent from the provided `schemas.py`; fields
per spec §3 (entity name, date, amount lost, severity, title, optional
description/tags, fixed flag, optional URL and slug).  The formatted
default title string built by the code is presentation-only and elided
(the stored `title` is the raw record's title field). -/
structure ExploitIncident where
  protocol_name : String
  date : Int
  amount_lost_usd : ℚ
  severity : IncidentSeverity
  title : Option String
  description : Option String
  tags : List String
  audit_status : Option String
  fixed : Bool
  details_url : Option String
  slug : Option String
deriving DecidableEq, Repr

/-- Python `a or b` on an optional string: `b` when `a` is `None` or
empty. -/
def pyOrStr (a : Option String) (b : String) : String :=
  match a with
  | some s => if s = "" then b else s
  | none => b

/-- Construction of one `ExploitIncident` inside the correlator loop
(rekt_scraper.py lines 310-326).  There is no exception handler in this
loop: `datetime.fromisoformat(date_str)` raising on a malformed date
string aborts the whole call, modelled as `Except.error`. -/
def buildIncident (slug : String) (protocol_name : Option String) (now : Int)
    (r : RawRecord) : Except Unit ExploitIncident := do
  let date ← match r.date with
    | none => pure now
    | some none => throw ()
    | some (some t) => pure t
  pure
    { protocol_name := r.protocol.getD (pyOrStr protocol_name slug)
      date := date
      amount_lost_usd := r.amount
      severity := classify_severity r.amount
      title := r.title
      description := r.description
      tags := r.tags
      audit_status := r.audit_status
      fixed := r.fixed
      details_url := r.url
      slug := r.slug }

/-- The correlator loop of `fetch_protocol_incidents` (lines 274-327):
matched records are converted in order; a failing conversion aborts the
loop (the Python loop has no try/except). -/
def correlateIncidents (slug : String) (protocol_name : Option String) (now : Int) :
    List RawRecord → Except Unit (List ExploitIncident)
  | [] => Except.ok []
  | r :: rs =>
    if matchedB slug protocol_name r then do
      let inc ← buildIncident slug protocol_name now r
      let rest ← correlateIncidents slug protocol_name now rs
      pure (inc :: rest)
    else correlateIncidents slug protocol_name now rs

/-- `RektScraper.fetch_protocol_incidents` on an already-fetched record
list: correlate, then sort newest first (`sort(key=..., reverse=True)` is
a stable descending sort). -/
def fetch_protocol_incidents (slug : String) (protocol_name : Option String)
    (now : Int) (records : List RawRecord) : Except Unit (List ExploitIncident) := do
  let incidents ← correlateIncidents slug protocol_name now records
  pure (incidents.mergeSort (fun a b => decide (b.date ≤ a.date)))

/-- The caller's guard in `DefiLlamaClient.fetch_protocol_data` (defillama.py
lines 173-178): any exception from the scraper degrades the whole incident
list to `[]`. -/
def incidentsGuarded (slug : String) (protocol_name : Option String)
    (now : Int) (records : List RawRecord) : List ExploitIncident :=
  match fetch_protocol_incidents slug protocol_name now records with
  | Except.ok l => l
  | Except.error _ => []

/-! ## TVL metrics (risk_metrics.py) -/

/-- `TVLDataPoint` model from schemas.py; the timestamp axis is measured
in days (the unit `calculate_tvl_trend` uses). -/
structure TVLDataPoint where
  date : Int
  tvl : ℚ
deriving DecidableEq, Repr

/-- The positive samples of a TVL history:
`[point.tvl for point in history if point.tvl > 0]`. -/
def positiveTvls (history : List TVLDataPoint) : List ℚ :=
  (history.filter (fun p => 0 < p.tvl)).map TVLDataPoint.tvl

/-- `statistics.mean`. -/
def listMean (xs : List ℚ) : ℚ :=
  xs.sum / xs.length

/-- The square of `statistics.stdev`: the sample (Bessel-corrected)
variance `Σ(x − x̄)² / (n − 1)`. -/
def sampleVariance (xs : List ℚ) : ℚ :=
  (xs.map (fun x => (x - listMean xs) ^ 2)).sum / ((xs.length : ℚ) - 1)

/-- The square of `statistics.pstdev`: the population variance
`Σ(x − x̄)² / n`. -/
def popVariance (xs : List ℚ) : ℚ :=
  (xs.map (fun x => (x - listMean xs) ^ 2)).sum / (xs.length : ℚ)

/-- `RiskCalculator.calculate_tvl_volatility`, modelled by its square so
the embedding stays in `ℚ` (the code returns `stdev / mean`, a square
root; squaring is injective on the nonnegative values both sides take, so
equalities between the code's value and a candidate formula hold iff they
hold for the squares).  Guards as in the code: fewer than 2 history
points → 0, fewer than 2 positive samples → 0, zero mean → 0; otherwise
`stdev(tvls)² / mean(tvls)²` with `statistics.stdev`, the sample standard
deviation. -/
def calculate_tvl_volatility_sq (history : List TVLDataPoint) : ℚ :=
  if history.length < 2 then 0
  else
    let tvls := positiveTvls history
    if tvls.length < 2 then 0
    else
      let m := listMean tvls
      if m = 0 then 0
      else sampleVariance tvls / m ^ 2

/-- The volatility the spec describes, also squared: population standard
deviation over the mean of the positive samples, 0 with fewer than 2
positive samples.  Stated from the spec's words for comparison with the
code's `calculate_tvl_volatility_sq`. -/
def spec_volatility_sq (history : List TVLDataPoint) : ℚ :=
  let tvls := positiveTvls history
  if tvls.length < 2 then 0
  else popVariance tvls / listMean tvls ^ 2

/-- `RiskCalculator.calculate_tvl_trend` with its `days=30` default, made
explicit in `now` (the code's `datetime.utcnow()`): percentage change
between the first and last point at most `days` old, falling back to the
last `min(len, 30)` points when the window holds fewer than 2 points. -/
def calculate_tvl_trend (now : Int) (history : List TVLDataPoint) (days : Int) : ℚ :=
  if history.length < 2 then 0
  else
    let cutoff := now - days
    let recent := history.filter (fun p => cutoff ≤ p.date)
    let recent := if recent.length < 2 then
        history.drop (history.length - min history.length 30)
      else recent
    if recent.length < 2 then 0
    else
      let startTvl := (recent.headD ⟨0, 0⟩).tvl
      let endTvl := (recent.getLastD ⟨0, 0⟩).tvl
      if startTvl = 0 then 0
      else (endTvl - startTvl) / startTvl * 100

/-- `ChainBreakdown` model from schemas.py. -/
structure ChainBreakdown where
  chain : String
  tvl : ℚ
  percentage : ℚ
deriving DecidableEq, Repr

/-- The fields of the `ProtocolData` model (schemas.py) consumed by the
assessors under verification. -/
structure ProtocolData where
  tvl : ℚ
  tvl_change_30d : Option ℚ
  chains : List String
  chain_tvls : List ChainBreakdown
  tvl_history : List TVLDataPoint
deriving DecidableEq, Repr

/-- The trend selection on line 85 of risk_metrics.py:
`trend = protocol.tvl_change_30d or self.calculate_tvl_trend(...)`.
Python `or` takes the right operand when the left is `None` **or** the
float `0.0` (both falsy). -/
def trendOf (now : Int) (p : ProtocolData) : ℚ :=
  match p.tvl_change_30d with
  | some c => if c = 0 then calculate_tvl_trend now p.tvl_history 30 else c
  | none => calculate_tvl_trend now p.tvl_history 30

/-- The base concentration score of `assess_chain_risk` from the top
venue's share: ≥80 → 7, ≥50 → 5, else 3. -/
def chainBaseScore (topPct : ℚ) : ℚ :=
  if 80 ≤ topPct then 7
  else if 50 ≤ topPct then 5
  else 3

/-- The score computed by `RiskCalculator.assess_chain_risk`
(risk_metrics.py lines 139-183); the description strings it renders are
presentation-only and not modelled.  Empty breakdown → neutral 5.0;
otherwise the base score from `chain_tvls[0].percentage`, reduced by 1.5
(floor 2.0) when `len(protocol.chains) >= 5`, by 0.5 (floor 2.0) when
`len(protocol.chains) >= 3`. -/
def assess_chain_risk_score (p : ProtocolData) : ℚ :=
  match p.chain_tvls with
  | [] => 5
  | top :: _ =>
    let base := chainBaseScore top.percentage
    if 5 ≤ p.chains.length then max 2 (base - 3/2)
    else if 3 ≤ p.chains.length then max 2 (base - 1/2)
    else base

/-! ## Bounded-staleness cache (defillama.py, DefiLlamaClient._get_cached) -/

/-- The client's cache state: `self._cache : dict[str, tuple[datetime,
Any]]` (modelled as an association list with the dict's unique-key reads
via `lookup`) plus the per-instance TTL in seconds. -/
structure LlamaCache (V : Type) where
  entries : List (String × ℚ × V)
  ttl : ℚ
deriving Repr

/-- `DefiLlamaClient._get_cached`, with the read clock explicit: a present
entry is returned iff `now − cached_at < ttl` (strict); otherwise it is
deleted (`del self._cache[key]`) and `None` is returned.  The function
returns the result together with the possibly-evicted cache. -/
def getCached {V : Type} (c : LlamaCache V) (key : String) (now : ℚ) :
    Option V × LlamaCache V :=
  match c.entries.lookup key with
  | some (cachedAt, v) =>
    if now - cachedAt < c.ttl then (some v, c)
    else (none, { c with entries := c.entries.filter (fun e => e.1 ≠ key) })
  | none => (none, c)

end DefiRisk

namespace DefiRisk

/-! ## Theorems -/

/-- Helper: the characters taken by `takeWhile` are a prefix of the
original list, stated on the Boolean prefix test. -/
theorem startsWithL_takeWhile (p : Char → Bool) (l : List Char) :
    startsWithL (l.takeWhile p) l = true := by
  induction l with
  | nil => rfl
  | cons c cs ih =>
    simp only [List.takeWhile]
    cases hp : p c with
    | true => simp [startsWithL, ih]
    | false => rfl

/-- Helper: a Boolean prefix is in particular a Boolean substring. -/
theorem containsL_of_startsWithL {pre s : List Char}
    (h : startsWithL pre s = true) : containsL pre s = true := by
  cases s with
  | nil => exact h
  | cons c cs => simp [containsL, h]

/-- Helper: Python `s.startswith(pre)` implies `pre in s`. -/
theorem pyContains_of_pyStartsWith (s pre : String)
    (h : pyStartsWith s pre = true) : pyContains s pre = true := by
  simp only [pyStartsWith, pyContains] at h ⊢
  exact containsL_of_startsWithL h

/-- Helper: `partialMatchB` with its `let` bindings expanded. -/
theorem partialMatchB_eq (nslug : String) (r : RawRecord) :
    partialMatchB nslug r
      = ((pySplitHead nslug != "") &&
         ((if itemSlugNorm r != "" then pySplitHead (itemSlugNorm r) else "") != "") &&
         (pyContains (itemSlugNorm r) (pySplitHead nslug)
           || pyStartsWith (itemSlugNorm r) (pySplitHead nslug)
           || pyContains (itemProtocolNorm r) (pySplitHead nslug)
           || pyStartsWith (itemProtocolNorm r) (pySplitHead nslug))) := rfl

/-- Helper: full characterization of the partial tier.  It fires exactly
when the query's base token and the record's slug and base token are
nonempty and the query base occurs inside the record's slug or
protocol-name field (a prefix being a special case of an occurrence). -/
theorem partialMatchB_iff (nslug : String) (r : RawRecord) :
    partialMatchB nslug r = true ↔
      (pySplitHead nslug ≠ ""
        ∧ itemSlugNorm r ≠ ""
        ∧ pySplitHead (itemSlugNorm r) ≠ ""
        ∧ (pyContains (itemSlugNorm r) (pySplitHead nslug) = true
            ∨ pyContains (itemProtocolNorm r) (pySplitHead nslug) = true)) := by
  constructor
  · intro h
    rw [partialMatchB_eq] at h
    simp only [Bool.and_eq_true] at h
    obtain ⟨⟨hb, hib⟩, hocc⟩ := h
    have hislug : itemSlugNorm r ≠ "" := by
      intro hc
      rw [hc] at hib
      simp at hib
    have hislug' : (itemSlugNorm r != "") = true := by simpa using hislug
    rw [if_pos hislug'] at hib
    refine ⟨by simpa using hb, hislug, by simpa using hib, ?_⟩
    by_cases hc1 : pyContains (itemSlugNorm r) (pySplitHead nslug) = true
    · exact Or.inl hc1
    by_cases hc2 : pyContains (itemProtocolNorm r) (pySplitHead nslug) = true
    · exact Or.inr hc2
    by_cases hs1 : pyStartsWith (itemSlugNorm r) (pySplitHead nslug) = true
    · exact Or.inl (pyContains_of_pyStartsWith _ _ hs1)
    by_cases hs2 : pyStartsWith (itemProtocolNorm r) (pySplitHead nslug) = true
    · exact Or.inr (pyContains_of_pyStartsWith _ _ hs2)
    exfalso
    simp only [Bool.not_eq_true] at hc1 hc2 hs1 hs2
    simp [hc1, hc2, hs1, hs2] at hocc
  · rintro ⟨hb, hislug, hbase, hocc⟩
    have hislug' : (itemSlugNorm r != "") = true := by simpa using hislug
    rw [partialMatchB_eq, if_pos hislug']
    simp only [Bool.and_eq_true, Bool.or_eq_true]
    refine ⟨⟨by simpa using hb, by simpa using hbase⟩, ?_⟩
    tauto

/-- C1: `calculate_overall_risk` returns the weighted mean of the factor
scores renormalized by the total weight present; an empty list or a zero
total weight yields overall 5.0 with level medium; and whenever the weights
sum to 1 and every factor is schema-valid (score in [0,10], weight ≥ 0 per
the pydantic `Field` bounds on `RiskFactor`), the overall lies in [0,10]. -/
theorem C1_aggregator_weighted_mean_bounds :
    (∀ l : List RiskFactor, l ≠ [] → totalWeight l ≠ 0 →
      (calculate_overall_risk l).overall = weightedSum l / totalWeight l)
    ∧ ((calculate_overall_risk []).overall = 5
        ∧ (calculate_overall_risk []).level = RiskLevel.medium)
    ∧ (∀ l : List RiskFactor, totalWeight l = 0 →
        (calculate_overall_risk l).overall = 5
          ∧ (calculate_overall_risk l).level = RiskLevel.medium)
    ∧ (∀ l : List RiskFactor, totalWeight l = 1 →
        (∀ f ∈ l, 0 ≤ f.score ∧ f.score ≤ 10 ∧ 0 ≤ f.weight) →
        0 ≤ (calculate_overall_risk l).overall
          ∧ (calculate_overall_risk l).overall ≤ 10) := by
  refine ⟨?_, ⟨rfl, rfl⟩, ?_, ?_⟩
  · intro l hne hw
    match l with
    | [] => exact absurd rfl hne
    | f :: fs =>
      simp only [calculate_overall_risk, if_neg hw, RiskScore.from_score]
  · intro l hw
    match l with
    | [] => exact ⟨rfl, rfl⟩
    | f :: fs =>
      simp [calculate_overall_risk, if_pos hw]
  · intro l hw hmem
    have hne : l ≠ [] := by
      intro h
      rw [h] at hw
      simp [totalWeight] at hw
    have hw0 : totalWeight l ≠ 0 := by rw [hw]; norm_num
    have hoverall : (calculate_overall_risk l).overall = weightedSum l := by
      match l with
      | [] => exact absurd rfl hne
      | f :: fs =>
        simp only [calculate_overall_risk, if_neg hw0, RiskScore.from_score, hw, div_one]
        norm_num
    rw [hoverall]
    constructor
    · apply List.sum_nonneg
      intro x hx
      obtain ⟨f, hf, rfl⟩ := List.mem_map.mp hx
      exact mul_nonneg (hmem f hf).1 (hmem f hf).2.2
    · have hle : weightedSum l ≤ (l.map (fun f => 10 * f.weight)).sum := by
        apply List.sum_le_sum
        intro f hf
        exact mul_le_mul_of_nonneg_right (hmem f hf).2.1 (hmem f hf).2.2
      have heq : (l.map (fun f => 10 * f.weight)).sum = 10 * totalWeight l := by
        simp [totalWeight, ← List.sum_map_mul_left]
      calc weightedSum l ≤ (l.map (fun f => 10 * f.weight)).sum := hle
        _ = 10 * totalWeight l := heq
        _ = 10 := by rw [hw]; norm_num

/-- Witness for C1: a concrete two-factor list with weights summing to 1. -/
theorem C1_aggregator_weighted_mean_bounds_witness :
    0 ≤ (calculate_overall_risk
          [⟨"TVL Risk", 4, 3/5, "d", none⟩, ⟨"Audit Status", 8, 2/5, "d", none⟩]).overall
    ∧ (calculate_overall_risk
          [⟨"TVL Risk", 4, 3/5, "d", none⟩, ⟨"Audit Status", 8, 2/5, "d", none⟩]).overall ≤ 10 := by
  have h := C1_aggregator_weighted_mean_bounds.2.2.2
    [⟨"TVL Risk", 4, 3/5, "d", none⟩, ⟨"Audit Status", 8, 2/5, "d", none⟩]
    (by norm_num [totalWeight])
    (by intro f hf; fin_cases hf <;> norm_num)
  exact h

/-- C2 counterexample: the claim asserts
`normalize("Cream Finance") == normalize("cream-finance")`, both equal to
`"cream"`.  The qualifier-stripping regex requires whitespace (`\s+`)
before the trailing word, so the hyphenated form keeps its suffix:
`normalize("cream-finance") = "cream-finance" ≠ "cream"`. -/
theorem C2_normalizer_cream_finance_counterexample :
    pyNormalize (some "Cream Finance") = "cream"
      ∧ pyNormalize (some "cream-finance") = "cream-finance"
      ∧ pyNormalize (some "cream-finance") ≠ pyNormalize (some "Cream Finance") := by
  refine ⟨by decide, by decide, by decide⟩

/-- C2 amended: the normalizer is a pure total function (a Lean `def`
returning a string on every input, so it never fails); `None` and the
empty string yield the empty token; `normalize("Cream Finance") = "cream"`
and `normalize("BadgerDAO") = "badgerdao"` hold as claimed; but a
qualifier after a hyphen is kept, so
`normalize("cream-finance") = "cream-finance"`. -/
theorem C2_normalizer_amended :
    pyNormalize none = ""
      ∧ pyNormalize (some "") = ""
      ∧ pyNormalize (some "Cream Finance") = "cream"
      ∧ pyNormalize (some "cream-finance") = "cream-finance"
      ∧ pyNormalize (some "BadgerDAO") = "badgerdao" := by
  refine ⟨rfl, by decide, by decide, by decide, by decide⟩

/-- C3 counterexample: the claim asserts all four slug/name-field ×
slug/display-name equality combinations fire the exact match.  The code
never compares the record slug against the query display name: for query
slug "abc" and display name "xyz", a record whose normalized slug is
exactly "xyz" (protocol field "qqq") is not matched at all. -/
theorem C3_exact_match_counterexample :
    matchedB "abc" (some "xyz")
        ⟨some "qqq", some "xyz", [], 0, none, none, none, none, false, none⟩ = false
      ∧ itemSlugNorm ⟨some "qqq", some "xyz", [], 0, none, none, none, none, false, none⟩
          = pyNormalize (some "xyz") := by
  exact ⟨by decide, by decide⟩

/-- C3 amended: the exact tier fires on three of the four combinations —
record slug = query slug, record protocol-name = query slug, and record
protocol-name = query display name (when a nonempty display name
normalizing to a nonempty token is supplied) — and any of them guarantees
the record is included; record slug = query display name is not checked. -/
theorem C3_exact_match_amended :
    (∀ (slug : String) (pname : Option String) (r : RawRecord),
        itemSlugNorm r = pyNormalize (some slug) → matchedB slug pname r = true)
    ∧ (∀ (slug : String) (pname : Option String) (r : RawRecord),
        itemProtocolNorm r = pyNormalize (some slug) → matchedB slug pname r = true)
    ∧ (∀ (slug s : String) (r : RawRecord),
        s ≠ "" → pyNormalize (some s) ≠ "" →
        itemProtocolNorm r = pyNormalize (some s) → matchedB slug (some s) r = true)
    ∧ (∀ (slug : String) (pname : Option String) (r : RawRecord),
        exactMatchB (pyNormalize (some slug)) (normalizedNameOpt pname) r = true →
        matchedB slug pname r = true) := by
  refine ⟨?_, ?_, ?_, ?_⟩
  · intro slug pname r h
    simp [matchedB, exactMatchB, h]
  · intro slug pname r h
    simp [matchedB, exactMatchB, h]
  · intro slug s r hs hn h
    simp [matchedB, exactMatchB, normalizedNameOpt, if_neg hs, h, hn]
  · intro slug pname r h
    simp [matchedB, h]

/-- Witness for C3 amended: a record whose slug equals the query slug is
included. -/
theorem C3_exact_match_amended_witness :
    matchedB "aave" none
        ⟨none, some "aave", [], 0, none, none, none, none, false, none⟩ = true := by
  exact C3_exact_match_amended.1 "aave" none
    ⟨none, some "aave", [], 0, none, none, none, none, false, none⟩ (by decide)

/-- C4 counterexample: the claim asserts a substring-prefix relationship
between the base tokens in either direction fires the partial tier.  The
code only tests the query base against the record fields: for query slug
"creams" (base "creams") and a record with slug and protocol "cream"
(base "cream", a prefix of "creams"), no tier matches. -/
theorem C4_partial_match_counterexample :
    matchedB "creams" none
        ⟨some "cream", some "cream", [], 0, none, none, none, none, false, none⟩ = false
      ∧ pyStartsWith (pyNormalize (some "creams"))
          (pySplitHead (itemSlugNorm
            ⟨some "cream", some "cream", [], 0, none, none, none, none, false, none⟩)) = true := by
  exact ⟨by decide, by decide⟩

/-- C4 amended: the partial tier (attempted only when no exact match fired
and the normalized query slug is nonempty) is one-directional: it fires
**iff** the query's base token and the record's slug and base token are
nonempty and the query base occurs as a substring (prefix included) of
the record's slug or of its protocol-name field — both directions of the
iff are proved.  Equal nonempty bases are a special case of that relation,
so they always fire the tier; and a firing tier includes the record. -/
theorem C4_partial_match_amended :
    (∀ (nslug : String) (r : RawRecord),
        partialMatchB nslug r = true ↔
          (pySplitHead nslug ≠ ""
            ∧ itemSlugNorm r ≠ ""
            ∧ pySplitHead (itemSlugNorm r) ≠ ""
            ∧ (pyContains (itemSlugNorm r) (pySplitHead nslug) = true
                ∨ pyContains (itemProtocolNorm r) (pySplitHead nslug) = true)))
    ∧ (∀ (nslug : String) (r : RawRecord),
        pySplitHead nslug ≠ "" →
        itemSlugNorm r ≠ "" →
        pySplitHead nslug = pySplitHead (itemSlugNorm r) →
        partialMatchB nslug r = true)
    ∧ (∀ (slug : String) (pname : Option String) (r : RawRecord),
        pyNormalize (some slug) ≠ "" →
        partialMatchB (pyNormalize (some slug)) r = true →
        matchedB slug pname r = true) := by
  refine ⟨partialMatchB_iff, ?_, ?_⟩
  · intro nslug r hbase hislug heq
    have hpre : pyStartsWith (itemSlugNorm r) (pySplitHead nslug) = true := by
      rw [heq]
      simp only [pyStartsWith, pySplitHead]
      simpa using startsWithL_takeWhile (fun c => c ≠ '-') (itemSlugNorm r).toList
    exact (partialMatchB_iff nslug r).mpr
      ⟨hbase, hislug, heq ▸ hbase,
       Or.inl (pyContains_of_pyStartsWith _ _ hpre)⟩
  · intro slug pname r hns hp
    by_cases hex : exactMatchB (pyNormalize (some slug)) (normalizedNameOpt pname) r = true
    · simp [matchedB, hex]
    · simp only [matchedB]
      rw [if_pos]
      · simp [hp]
      · simp [Bool.not_eq_true] at hex
        simp [hex, hns]

/-- Witness for C4 amended: a mid-string occurrence with unequal base
tokens ("cream" inside record slug "acream-y") fires the tier via the
backward direction of the iff; equal bases ("cream" = "cream") fire it
too; and a firing tier includes the record. -/
theorem C4_partial_match_amended_witness :
    partialMatchB "cream-x"
        ⟨some "other", some "acream-y", [], 0, none, none, none, none, false, none⟩ = true
      ∧ partialMatchB "cream-x"
          ⟨some "other", some "cream-y", [], 0, none, none, none, none, false, none⟩ = true
      ∧ matchedB "cream-x" none
          ⟨some "other", some "acream-y", [], 0, none, none, none, none, false, none⟩ = true := by
  refine ⟨?_, ?_, ?_⟩
  · exact (C4_partial_match_amended.1 "cream-x"
      ⟨some "other", some "acream-y", [], 0, none, none, none, none, false, none⟩).mpr
      ⟨by decide, by decide, by decide, Or.inl (by decide)⟩
  · exact C4_partial_match_amended.2.1 "cream-x"
      ⟨some "other", some "cream-y", [], 0, none, none, none, none, false, none⟩
      (by decide) (by decide) (by decide)
  · exact C4_partial_match_amended.2.2 "cream-x" none
      ⟨some "other", some "acream-y", [], 0, none, none, none, none, false, none⟩
      (by decide) (by decide)

/-- C7: the claim (and spec §7) says a malformed incident record is
skipped while the rest of the batch is still returned.  The correlator
loop in `fetch_protocol_incidents` has no per-record exception handling:
a matched record whose date string `datetime.fromisoformat` cannot parse
raises, aborting the whole call, and the caller's blanket handler in
`fetch_protocol_data` then degrades the entire batch to `[]` — the
well-formed record is lost too.  Evaluated here on a batch of one
well-formed and one malformed matched record. -/
theorem C7_malformed_record_fatal_to_batch :
    fetch_protocol_incidents "cream" none 1000
        [⟨some "cream", some "cream", [], 5000000, some (some 100), none, none, none, true, none⟩,
         ⟨some "cream", some "cream", [], 2000000, some none, none, none, none, false, none⟩]
      = .error ()
    ∧ incidentsGuarded "cream" none 1000
        [⟨some "cream", some "cream", [], 5000000, some (some 100), none, none, none, true, none⟩,
         ⟨some "cream", some "cream", [], 2000000, some none, none, none, none, false, none⟩]
      = []
    ∧ (buildIncident "cream" none 1000
        ⟨some "cream", some "cream", [], 5000000, some (some 100), none, none, none, true, none⟩).isOk
      = true
    ∧ matchedB "cream" none
        ⟨some "cream", some "cream", [], 2000000, some none, none, none, none, false, none⟩
      = true := by
  exact ⟨by rfl, by rfl, by rfl, by decide⟩

/-- C5: `_get_cached` returns a stored value only if `now − created_at <
TTL` (strictly); otherwise it evicts the entry and reports absent, so a
value at least TTL old is never served; an absent key leaves the cache
untouched. -/
theorem C5_cache_never_serves_stale :
    (∀ (V : Type) (c : LlamaCache V) (key : String) (now : ℚ) (v : V),
        (getCached c key now).1 = some v →
        ∃ t, c.entries.lookup key = some (t, v) ∧ now - t < c.ttl)
    ∧ (∀ (V : Type) (c : LlamaCache V) (key : String) (now : ℚ) (t : ℚ) (v : V),
        c.entries.lookup key = some (t, v) → c.ttl ≤ now - t →
        getCached c key now
          = (none, { c with entries := c.entries.filter (fun e => e.1 ≠ key) }))
    ∧ (∀ (V : Type) (c : LlamaCache V) (key : String) (now : ℚ),
        c.entries.lookup key = none → getCached c key now = (none, c)) := by
  refine ⟨?_, ?_, ?_⟩
  · intro V c key now v h
    cases hl : c.entries.lookup key with
    | none => simp [getCached, hl] at h
    | some tv =>
      obtain ⟨t, v'⟩ := tv
      by_cases hf : now - t < c.ttl
      · refine ⟨t, ?_, hf⟩
        simp only [getCached, hl, if_pos hf] at h
        rw [Option.some_inj.mp h]
      · simp [getCached, hl, if_neg hf] at h
  · intro V c key now t v hl hge
    simp only [getCached, hl, if_neg (not_lt.mpr hge)]
  · intro V c key now hl
    simp only [getCached, hl]

/-- Witness for C5: a 300-second-TTL entry created at t=100 and read at
t=400 (exactly TTL old) is evicted and not served. -/
theorem C5_cache_never_serves_stale_witness :
    getCached (⟨[("k", 100, 42)], 300⟩ : LlamaCache ℕ) "k" 400
      = (none, (⟨[], 300⟩ : LlamaCache ℕ)) := by
  have h := C5_cache_never_serves_stale.2.1 ℕ
    (⟨[("k", 100, 42)], 300⟩ : LlamaCache ℕ) "k" 400 100 42 rfl (by norm_num)
  simpa using h

/-- C6 counterexample: the claim says the coefficient of variation uses
the population standard deviation.  The code calls `statistics.stdev`,
the sample (n−1) standard deviation: on positive samples 1,1,3,3 the
squared code value is (4/3)/4 = 1/3 while the squared
population-deviation value is (4/4)/4 = 1/4. -/
theorem C6_volatility_estimator_counterexample :
    calculate_tvl_volatility_sq [⟨0, 1⟩, ⟨1, 1⟩, ⟨2, 3⟩, ⟨3, 3⟩] = 1/3
      ∧ spec_volatility_sq [⟨0, 1⟩, ⟨1, 1⟩, ⟨2, 3⟩, ⟨3, 3⟩] = 1/4
      ∧ calculate_tvl_volatility_sq [⟨0, 1⟩, ⟨1, 1⟩, ⟨2, 3⟩, ⟨3, 3⟩]
          ≠ spec_volatility_sq [⟨0, 1⟩, ⟨1, 1⟩, ⟨2, 3⟩, ⟨3, 3⟩] := by
  have h1 : calculate_tvl_volatility_sq [⟨0, 1⟩, ⟨1, 1⟩, ⟨2, 3⟩, ⟨3, 3⟩] = 1/3 := by
    norm_num [calculate_tvl_volatility_sq, positiveTvls, listMean, sampleVariance]
  have h2 : spec_volatility_sq [⟨0, 1⟩, ⟨1, 1⟩, ⟨2, 3⟩, ⟨3, 3⟩] = 1/4 := by
    norm_num [spec_volatility_sq, positiveTvls, listMean, popVariance]
  refine ⟨h1, h2, ?_⟩
  rw [h1, h2]
  norm_num

/-- C6 amended: the returned volatility is the **sample** (Bessel-corrected)
standard deviation of the positive samples divided by their mean, and 0
whenever there are fewer than 2 positive samples (which subsumes the
fewer-than-2-history-points guard); with at least 2 positive samples the
mean is positive, so the zero-mean guard never fires. -/
theorem C6_volatility_amended :
    (∀ history : List TVLDataPoint, (positiveTvls history).length < 2 →
        calculate_tvl_volatility_sq history = 0)
    ∧ (∀ history : List TVLDataPoint, 2 ≤ (positiveTvls history).length →
        0 < listMean (positiveTvls history)
          ∧ calculate_tvl_volatility_sq history
              = sampleVariance (positiveTvls history)
                  / listMean (positiveTvls history) ^ 2) := by
  constructor
  · intro history hlt
    unfold calculate_tvl_volatility_sq
    by_cases h2 : history.length < 2
    · rw [if_pos h2]
    · rw [if_neg h2]
      simp only
      rw [if_pos hlt]
  · intro history hge
    have hlen : ¬ history.length < 2 := by
      have h1 : (positiveTvls history).length ≤ history.length := by
        unfold positiveTvls
        rw [List.length_map]
        exact List.length_filter_le _ _
      omega
    have hpos : ∀ x ∈ positiveTvls history, 0 < x := by
      intro x hx
      obtain ⟨q, hq, rfl⟩ := List.mem_map.mp hx
      exact of_decide_eq_true (List.mem_filter.mp hq).2
    have hne : positiveTvls history ≠ [] := by
      intro h
      rw [h] at hge
      simp at hge
    have hmean : 0 < listMean (positiveTvls history) := by
      unfold listMean
      apply div_pos (List.sum_pos _ hpos hne)
      have := List.length_pos.mpr hne
      exact_mod_cast this
    refine ⟨hmean, ?_⟩
    unfold calculate_tvl_volatility_sq
    rw [if_neg hlen]
    simp only
    rw [if_neg (by omega), if_neg (ne_of_gt hmean)]

/-- Witness for C6 amended: the 4-point history used in the
counterexample has 4 positive samples, mean 2 and squared code volatility
(4/3)/4. -/
theorem C6_volatility_amended_witness :
    0 < listMean (positiveTvls [⟨0, 1⟩, ⟨1, 1⟩, ⟨2, 3⟩, ⟨3, 3⟩])
      ∧ calculate_tvl_volatility_sq [⟨0, 1⟩, ⟨1, 1⟩, ⟨2, 3⟩, ⟨3, 3⟩]
          = sampleVariance (positiveTvls [⟨0, 1⟩, ⟨1, 1⟩, ⟨2, 3⟩, ⟨3, 3⟩])
              / listMean (positiveTvls [⟨0, 1⟩, ⟨1, 1⟩, ⟨2, 3⟩, ⟨3, 3⟩]) ^ 2 := by
  exact C6_volatility_amended.2 [⟨0, 1⟩, ⟨1, 1⟩, ⟨2, 3⟩, ⟨3, 3⟩]
    (by norm_num [positiveTvls])

/-- C8 counterexample: the claim says a supplied 30-day change of 0.0 is
used directly.  `protocol.tvl_change_30d or self.calculate_tvl_trend(...)`
treats the float 0.0 as falsy: with `tvl_change_30d = 0.0` and a history
falling from 100 to 50 inside the window, the assessed trend is the
derived −50, not the supplied 0. -/
theorem C8_trend_zero_change_counterexample :
    (⟨1000000, some 0, [], [], [⟨990, 100⟩, ⟨995, 50⟩]⟩ : ProtocolData).tvl_change_30d
        = some 0
      ∧ trendOf 1000 ⟨1000000, some 0, [], [], [⟨990, 100⟩, ⟨995, 50⟩]⟩ = -50
      ∧ (-50 : ℚ) ≠ 0 := by
  refine ⟨rfl, ?_, by norm_num⟩
  norm_num [trendOf, calculate_tvl_trend]

/-- C8 amended: the supplied 30-day change is used directly iff it is
present **and nonzero**; when the field is absent or equal to 0.0 the
trend is derived from the time series by `calculate_tvl_trend`. -/
theorem C8_trend_selection_amended :
    (∀ (now : Int) (p : ProtocolData) (c : ℚ),
        p.tvl_change_30d = some c → c ≠ 0 → trendOf now p = c)
    ∧ (∀ (now : Int) (p : ProtocolData),
        p.tvl_change_30d = none ∨ p.tvl_change_30d = some 0 →
        trendOf now p = calculate_tvl_trend now p.tvl_history 30) := by
  constructor
  · intro now p c hc hne
    unfold trendOf
    rw [hc]
    exact if_neg hne
  · intro now p h
    unfold trendOf
    rcases h with h | h <;> rw [h]
    simp

/-- Witness for C8 amended: a nonzero supplied change (7%) is used
directly. -/
theorem C8_trend_selection_amended_witness :
    trendOf 0 ⟨0, some 7, [], [], []⟩ = 7 := by
  exact C8_trend_selection_amended.1 0 ⟨0, some 7, [], [], []⟩ 7 rfl (by norm_num)

/-- C10: the multi-venue reduction in `assess_chain_risk` is driven by
`len(protocol.chains)`, not by the number of entries of the chain-TVL
breakdown: for any nonempty breakdown the 1.5 (resp. 0.5) reduction with
floor 2.0 applies iff the chains name-list has ≥5 (resp. ≥3) entries; a
protocol with five breakdown entries but an empty chains list keeps its
base score, while one with five chain names and a single breakdown entry
is reduced. -/
theorem C10_chain_bonus_uses_chains_list :
    (∀ (p : ProtocolData) (top : ChainBreakdown) (rest : List ChainBreakdown),
        p.chain_tvls = top :: rest → 5 ≤ p.chains.length →
        assess_chain_risk_score p = max 2 (chainBaseScore top.percentage - 3/2))
    ∧ (∀ (p : ProtocolData) (top : ChainBreakdown) (rest : List ChainBreakdown),
        p.chain_tvls = top :: rest → 3 ≤ p.chains.length → p.chains.length < 5 →
        assess_chain_risk_score p = max 2 (chainBaseScore top.percentage - 1/2))
    ∧ (∀ (p : ProtocolData) (top : ChainBreakdown) (rest : List ChainBreakdown),
        p.chain_tvls = top :: rest → p.chains.length < 3 →
        assess_chain_risk_score p = chainBaseScore top.percentage)
    ∧ assess_chain_risk_score
        ⟨0, none, [],
         [⟨"a", 1, 20⟩, ⟨"b", 1, 20⟩, ⟨"c", 1, 20⟩, ⟨"d", 1, 20⟩, ⟨"e", 1, 20⟩], []⟩ = 3
    ∧ assess_chain_risk_score
        ⟨0, none, ["c1", "c2", "c3", "c4", "c5"], [⟨"Ethereum", 100, 100⟩], []⟩ = 11/2
    ∧ (3 : ℚ) ≠ max 2 (chainBaseScore 20 - 3/2) := by
  refine ⟨?_, ?_, ?_,
    by norm_num [assess_chain_risk_score, chainBaseScore],
    by norm_num [assess_chain_risk_score, chainBaseScore],
    by norm_num [chainBaseScore]⟩
  · intro p top rest h h5
    simp only [assess_chain_risk_score, h]
    rw [if_pos h5]
  · intro p top rest h h3 h5
    simp only [assess_chain_risk_score, h]
    rw [if_neg (by omega), if_pos h3]
  · intro p top rest h h3
    simp only [assess_chain_risk_score, h]
    rw [if_neg (by omega), if_neg (by omega)]

/-- Witness for C10: the five-chain-names / one-breakdown-entry protocol
is reduced from base 7 to 5.5. -/
theorem C10_chain_bonus_uses_chains_list_witness :
    assess_chain_risk_score
        ⟨0, none, ["c1", "c2", "c3", "c4", "c5"], [⟨"Ethereum", 100, 100⟩], []⟩
      = max 2 (chainBaseScore 100 - 3/2) := by
  exact C10_chain_bonus_uses_chains_list.1
    ⟨0, none, ["c1", "c2", "c3", "c4", "c5"], [⟨"Ethereum", 100, 100⟩], []⟩
    ⟨"Ethereum", 100, 100⟩ [] rfl (by decide)

/-- C9: `calculate_overall_risk` is order-independent: permuting the factor
list changes neither the overall score nor the derived level. -/
theorem C9_aggregator_order_independent :
    ∀ l l' : List RiskFactor, l.Perm l' →
      (calculate_overall_risk l).overall = (calculate_overall_risk l').overall
        ∧ (calculate_overall_risk l).level = (calculate_overall_risk l').level := by
  intro l l' h
  have hw : totalWeight l = totalWeight l' := by
    unfold totalWeight
    exact (h.map RiskFactor.weight).sum_eq
  have hs : weightedSum l = weightedSum l' := by
    unfold weightedSum
    exact (h.map (fun f => f.score * f.weight)).sum_eq
  match l, l' with
  | [], l' =>
    have : l' = [] := h.symm.eq_nil
    subst this
    exact ⟨rfl, rfl⟩
  | f :: fs, [] =>
    exact absurd h.eq_nil (by simp)
  | f :: fs, g :: gs =>
    by_cases h0 : totalWeight (f :: fs) = 0
    · have h0' : totalWeight (g :: gs) = 0 := hw ▸ h0
      simp [calculate_overall_risk, if_pos h0, if_pos h0']
    · have h0' : totalWeight (g :: gs) ≠ 0 := hw ▸ h0
      simp [calculate_overall_risk, if_neg h0, if_neg h0', RiskScore.from_score, hw, hs]

/-- Witness for C9: swapping two concrete factors preserves overall and level. -/
theorem C9_aggregator_order_independent_witness :
    (calculate_overall_risk
        [⟨"a", 2, 1/4, "x", none⟩, ⟨"b", 9, 3/4, "y", none⟩]).overall
      = (calculate_overall_risk
        [⟨"b", 9, 3/4, "y", none⟩, ⟨"a", 2, 1/4, "x", none⟩]).overall := by
  exact (C9_aggregator_order_independent
    [⟨"a", 2, 1/4, "x", none⟩, ⟨"b", 9, 3/4, "y", none⟩]
    [⟨"b", 9, 3/4, "y", none⟩, ⟨"a", 2, 1/4, "x", none⟩]
    (List.Perm.swap _ _ _)).1

end DefiRisk
